import Mathlib

/-!
Shallow embedding of `src/server.js`, a WebSocket multiplayer game server:
a registry of players (a JS `Map`), a connection handler, a message handler,
a fixed-rate simulation tick and a lower-rate snapshot broadcaster.

Numbers (positions, velocities, timestamps, `dt`) are modelled as real
numbers.  JS `Map` entries are modelled as an association list
(`mapSet` / `mapDelete` follow `Map.set` / `Map.delete` semantics: set
replaces in place or appends, delete of an absent key is a no-op).

A quirk of the source is modelled faithfully: `wss.on('connection')` both
inserts a canonical player into the `Map` (`players.set(player.id, player)`,
line 53) and writes a second, shadow record as a plain *property* of the Map
object (`players[id] = {...}`, line 58) under a different, independently
generated id.  `Object.entries(players)` (line 63) iterates only the shadow
properties, while `players.values()` (lines 114, 129, 165) iterates only the
canonical Map entries.  The state therefore carries both tables.
-/

namespace WsGame

abbrev Id := String
abbrev ConnId := Nat

/-- The four directional input booleans, `{up, down, left, right}`. -/
structure Input where
  up : Bool
  down : Bool
  left : Bool
  right : Bool
deriving DecidableEq, Repr

/-- A canonical player record, as built by `createPlayer` (lines 35-49).
`conn` stands for the `ws` handle identifying the player's connection. -/
structure Player where
  id : Id
  conn : ConnId
  x : ℝ
  y : ℝ
  vx : ℝ
  vy : ℝ
  speed : ℝ
  input : Input
  color : String
  lastSeen : ℝ

/-- The shadow record written by `players[id] = {x:100, y:100, vx:0, vy:0,
color, ip}` (line 58). -/
structure ShadowRec where
  x : ℝ
  y : ℝ
  vx : ℝ
  vy : ℝ
  color : String
  ip : String

/-- `Map.set k v`: replace the value at `k` in place if present, else append. -/
def mapSet {α : Type} (k : Id) (v : α) : List (Id × α) → List (Id × α)
  | [] => [(k, v)]
  | e :: rest => if e.1 = k then (k, v) :: rest else e :: mapSet k v rest

/-- `Map.delete k`: drop the entry at `k`; a no-op when `k` is absent. -/
def mapDelete {α : Type} (k : Id) (m : List (Id × α)) : List (Id × α) :=
  m.filter (fun e => e.1 ≠ k)

/-- The raw direction vector from the input booleans (lines 131-135):
each held key contributes `-1` or `+1` to its axis, summed. -/
def rawDir (i : Input) : Int × Int :=
  ((if i.left then -1 else 0) + (if i.right then 1 else 0),
   (if i.up then -1 else 0) + (if i.down then 1 else 0))

/-- The direction vector after diagonal normalization (lines 138-141):
when both axes are nonzero each is multiplied by `1 / Math.sqrt(2)`. -/
noncomputable def dir (i : Input) : ℝ × ℝ :=
  let d := rawDir i
  if d.1 ≠ 0 ∧ d.2 ≠ 0 then
    ((d.1 : ℝ) * (1 / Real.sqrt 2), (d.2 : ℝ) * (1 / Real.sqrt 2))
  else
    ((d.1 : ℝ), (d.2 : ℝ))

/-- Euclidean magnitude of a vector. -/
noncomputable def mag (v : ℝ × ℝ) : ℝ :=
  Real.sqrt (v.1 ^ 2 + v.2 ^ 2)

/-- One simulation tick for one player (lines 129-152): map input to
velocity (`p.vx = dx * p.speed`), integrate position (`p.x += p.vx * dt`),
then clamp into `[20, 980] × [20, 580]`. -/
noncomputable def tickPlayer (dt : ℝ) (p : Player) : Player :=
  let d := dir p.input
  let vx := d.1 * p.speed
  let vy := d.2 * p.speed
  { p with
    vx := vx
    vy := vy
    x := max 20 (min 980 (p.x + vx * dt))
    y := max 20 (min 580 (p.y + vy * dt)) }

/-- One simulation tick over the whole registry (`for (const p of
players.values())`, line 129). -/
noncomputable def tickAll (dt : ℝ) (reg : List (Id × Player)) :
    List (Id × Player) :=
  reg.map (fun e => (e.1, tickPlayer dt e.2))

/-- A sequence of simulation ticks with the given `dt` of each tick. -/
noncomputable def runTicks (p : Player) : List ℝ → Player
  | [] => p
  | dt :: rest => runTicks (tickPlayer dt p) rest

/-- Convenience: the concrete player used by several witnesses. -/
noncomputable def pIdle : Player :=
  { id := "a", conn := 0, x := 500, y := 300, vx := 7, vy := -7,
    speed := 180, input := ⟨false, false, false, false⟩,
    color := "#aaaaaa", lastSeen := 0 }

/-- Concrete player holding only `right`, used by witnesses. -/
noncomputable def pRight : Player :=
  { id := "b", conn := 1, x := 500, y := 300, vx := 0, vy := 0,
    speed := 180, input := ⟨false, false, false, true⟩,
    color := "#bbbbbb", lastSeen := 0 }

/-- One entry of a `players` array inside a snapshot message.  The periodic
broadcaster (lines 165-174) emits exactly `{id, x, y, vx, vy, color}`
(`ip := none` here); the join-time snapshot (lines 63-65) additionally
copies an `ip` field from the shadow records (`ip := some _`). -/
structure SnapEntry where
  id : Id
  x : ℝ
  y : ℝ
  vx : ℝ
  vy : ℝ
  color : String
  ip : Option String

/-- Server-to-client wire messages.  `snapshot`'s `ts` is `none` for the
join-time snapshot (line 67, which has no `ts` field) and `some _` for the
periodic one (line 162). -/
inductive Out where
  | welcome (id : Id) (ip : String)
  | playerJoin (id : Id) (x y : ℝ) (color : String)
  | snapshot (ts : Option ℝ) (players : List SnapEntry)
  | remove (id : Id)
  | pong (ts : ℝ)

/-- The full server state: the canonical `Map` entries (`players.set`) and
the shadow plain-property records (`players[id] = ...`). -/
structure ServerState where
  reg : List (Id × Player)
  shadow : List (Id × ShadowRec)

/-- `broadcast(obj)` (lines 112-119): serialize once and send the identical
payload to every player in the registry whose socket's `readyState` is
`OPEN`; others are skipped. -/
def broadcast (openC : ConnId → Bool) (reg : List (Id × Player)) (m : Out) :
    List (ConnId × Out) :=
  (reg.filter (fun e => openC e.2.conn)).map (fun e => (e.2.conn, m))

/-- The per-connection fresh data consumed by the connection handler: the
two independently generated ids (`crypto.randomBytes(8).toString('hex')` on
line 36 and `Math.random().toString(36).slice(2,9)` on line 56), the random
spawn position and colors, the peer's address and the current time. -/
structure ConnFresh where
  regId : Id
  shadowId : Id
  spawnX : ℝ
  spawnY : ℝ
  color1 : String
  color2 : String
  ip : String
  now : ℝ

/-- `createPlayer(ws)` (lines 35-49). -/
def createPlayer (c : ConnId) (f : ConnFresh) : Player :=
  { id := f.regId, conn := c, x := f.spawnX, y := f.spawnY, vx := 0, vy := 0,
    speed := 180, input := ⟨false, false, false, false⟩,
    color := f.color1, lastSeen := f.now }

/-- The join-time snapshot (lines 62-67): `Object.entries(players)` iterates
the shadow property records, not the Map entries; coordinates are not
rounded, the `ip` field is included and there is no `ts` field. -/
def joinSnapshot (shadow : List (Id × ShadowRec)) : Out :=
  .snapshot none (shadow.map fun e =>
    ⟨e.1, e.2.x, e.2.y, e.2.vx, e.2.vy, e.2.color, some e.2.ip⟩)

/-- `wss.on('connection')` (lines 51-88): insert the canonical player under
`f.regId`, write the shadow record under the separately generated
`f.shadowId`, send `welcome` (carrying `f.shadowId` and the ip) to the new
connection, broadcast the join-time snapshot, then broadcast `player_join`
(carrying `f.regId`).  Returns the new state and the sent messages in
order. -/
def onConnection (openC : ConnId → Bool) (s : ServerState) (c : ConnId)
    (f : ConnFresh) : ServerState × List (ConnId × Out) :=
  let player := createPlayer c f
  let reg1 := mapSet f.regId player s.reg
  let shadow1 := mapSet f.shadowId ⟨100, 100, 0, 0, f.color2, f.ip⟩ s.shadow
  (⟨reg1, shadow1⟩,
    (c, Out.welcome f.shadowId f.ip) ::
      broadcast openC reg1 (joinSnapshot shadow1) ++
      broadcast openC reg1 (.playerJoin f.regId f.spawnX f.spawnY f.color1))

/-- `ws.on('close')` (lines 80-84): delete the canonical entry (the shadow
record is *not* deleted), then broadcast `remove` with the canonical id. -/
def onClose (openC : ConnId → Bool) (s : ServerState) (p : Player) :
    ServerState × List (ConnId × Out) :=
  let reg1 := mapDelete p.id s.reg
  (⟨reg1, s.shadow⟩, broadcast openC reg1 (.remove p.id))

/-- `Math.round`: round half toward positive infinity, `⌊x + 1/2⌋`. -/
noncomputable def jsRound (x : ℝ) : ℝ := ((⌊x + 1 / 2⌋ : ℤ) : ℝ)

/-- The periodic snapshot (lines 158-175): one entry per Map entry, with
`x, y, vx, vy` rounded to integers, plus a `ts` field. -/
noncomputable def periodicSnapshot (ts : ℝ) (reg : List (Id × Player)) :
    Out :=
  .snapshot (some ts) (reg.map fun e =>
    ⟨e.2.id, jsRound e.2.x, jsRound e.2.y, jsRound e.2.vx, jsRound e.2.vy,
      e.2.color, none⟩)

/-- One firing of the broadcast interval. -/
noncomputable def onBroadcastTick (openC : ConnId → Bool) (s : ServerState)
    (ts : ℝ) : List (ConnId × Out) :=
  broadcast openC s.reg (periodicSnapshot ts s.reg)

/-- The `input` field of an `input` message: each direction is `some b`
when the JSON carried that key with boolean value `b`, `none` when the key
is absent (JS `undefined`, whose `!!` coercion is `false`). -/
structure InputMsg where
  up : Option Bool
  down : Option Bool
  left : Option Bool
  right : Option Bool
deriving DecidableEq, Repr

/-- A parsed client message.  `input`'s payload is `none` when the message
has no `input` object at all (reading `msg.input.up` then throws). -/
inductive ClientMsg where
  | input (inp : Option InputMsg)
  | ping (ts : ℝ)
  | other

/-- `!!msg.input.up` etc. (lines 96-99): an absent key coerces to `false`. -/
def coerceInput (m : InputMsg) : Input :=
  ⟨m.up.getD false, m.down.getD false, m.left.getD false, m.right.getD false⟩

/-- `handleMessage(player, msg)` (lines 90-110).  Returns the updated
player, whether a `TypeError` was thrown (accessing `msg.input.up` when
`msg.input` is absent — after `lastSeen` was already updated), and the
direct replies sent.  Unknown message types are ignored. -/
def handleMessage (now : ℝ) (p : Player) (m : ClientMsg) :
    Player × Bool × List (ConnId × Out) :=
  let p1 := { p with lastSeen := now }
  match m with
  | .input (some inp) => ({ p1 with input := coerceInput inp }, false, [])
  | .input none => (p1, true, [])
  | .ping ts => (p1, false, [(p.conn, .pong ts)])
  | .other => (p1, false, [])

/-- `ws.on('message')` (lines 71-78): `raw = none` models an unparseable
payload (`JSON.parse` throws).  Both a parse failure and an exception
escaping `handleMessage` are caught by the `try/catch`, which logs a
warning and drops the message; the returned flag records whether the
warning was logged.  The connection is never closed here. -/
def onMessage (now : ℝ) (p : Player) (raw : Option ClientMsg) :
    Player × List (ConnId × Out) × Bool :=
  match raw with
  | none => (p, [], true)
  | some m =>
    let r := handleMessage now p m
    if r.2.1 then (r.1, [], true) else (r.1, r.2.2, false)

/-- All sockets report `readyState === OPEN`. -/
def openAll : ConnId → Bool := fun _ => true

/-- Only socket 1 reports `readyState === OPEN`. -/
def openOnlyOne : ConnId → Bool := fun c => c == 1

/-- Concrete fresh data for a joining connection, used by C3. -/
noncomputable def fC3 : ConnFresh :=
  ⟨"regC3", "shC3", 400, 200, "#333333", "#444444", "1.2.3.4", 0⟩

/-- Concrete fresh data for a joining connection, used by C4. -/
noncomputable def fC4 : ConnFresh :=
  ⟨"reg4", "sh4", 305, 300, "#555555", "#666666", "8.8.8.8", 0⟩

/-- Concrete fresh data for a joining connection, used by C5. -/
noncomputable def fC5 : ConnFresh :=
  ⟨"reg5", "sh5", 500, 300, "#111111", "#222222", "9.9.9.9", 0⟩

/-- A pre-existing player on connection 5, used by C5's witness. -/
noncomputable def pOld : Player := { pIdle with id := "old", conn := 5 }

/-- A player whose stored input has all four directions held, used by C6. -/
noncomputable def pAllTrue : Player :=
  { pIdle with input := ⟨true, true, true, true⟩ }

/-- Fresh data for player A (connection 0) in the C7 scenario. -/
noncomputable def fA : ConnFresh :=
  ⟨"regA", "shA", 400, 200, "#aa0000", "#aa0001", "1.1.1.1", 0⟩

/-- Fresh data for player B (connection 1) in the C7 scenario. -/
noncomputable def fB : ConnFresh :=
  ⟨"regB", "shB", 450, 250, "#bb0000", "#bb0001", "2.2.2.2", 1⟩

/-- C7 scenario, first leg: A joins an empty server. -/
noncomputable def joinA : ServerState × List (ConnId × Out) :=
  onConnection openAll ⟨[], []⟩ 0 fA

/-- C7 scenario: A disconnects while alone. -/
noncomputable def closeA : ServerState × List (ConnId × Out) :=
  onClose openAll joinA.1 (createPlayer 0 fA)

/-- C7 scenario: B joins after A has disconnected. -/
noncomputable def joinB : ServerState × List (ConnId × Out) :=
  onConnection openAll closeA.1 1 fB

/-- C7 scenario variant: B joins while A is still connected. -/
noncomputable def joinAB : ServerState × List (ConnId × Out) :=
  onConnection openAll joinA.1 1 fB

/-- C7 scenario variant: A disconnects while B remains. -/
noncomputable def closeA2 : ServerState × List (ConnId × Out) :=
  onClose openAll joinAB.1 (createPlayer 0 fA)

lemma invsqrt2_sq : (1 / Real.sqrt 2) ^ 2 = 1 / 2 := by
  rw [div_pow, one_pow, Real.sq_sqrt (by norm_num : (0:ℝ) ≤ 2)]

lemma tickPlayer_preserves (dt : ℝ) (p : Player) :
    (tickPlayer dt p).input = p.input ∧ (tickPlayer dt p).speed = p.speed ∧
    (tickPlayer dt p).id = p.id := by
  refine ⟨rfl, rfl, rfl⟩

/-- C1: after a tick every entity's position lies in `[20,980] × [20,580]`,
whatever the input, prior velocity or (non-negative) `dt`. -/
theorem tick_position_bounded (dt : ℝ) (reg : List (Id × Player))
    (e : Id × Player) (hdt : 0 ≤ dt) (he : e ∈ tickAll dt reg) :
    20 ≤ e.2.x ∧ e.2.x ≤ 980 ∧ 20 ≤ e.2.y ∧ e.2.y ≤ 580 := by
  rcases List.mem_map.1 he with ⟨a, _, rfl⟩
  refine ⟨le_max_left _ _, ?_, le_max_left _ _, ?_⟩
  · exact max_le (by norm_num) (min_le_left _ _)
  · exact max_le (by norm_num) (min_le_left _ _)

/-- Witness for C1 at a concrete registry and `dt = 0`. -/
theorem tick_position_bounded_witness :
    (0:ℝ) ≤ 0 ∧ ("a", tickPlayer 0 pIdle) ∈ tickAll 0 [("a", pIdle)] ∧
    20 ≤ (tickPlayer 0 pIdle).x ∧ (tickPlayer 0 pIdle).x ≤ 980 ∧
    20 ≤ (tickPlayer 0 pIdle).y ∧ (tickPlayer 0 pIdle).y ≤ 580 := by
  have hmem : ("a", tickPlayer 0 pIdle) ∈ tickAll 0 [("a", pIdle)] := by
    simp [tickAll]
  have h := tick_position_bounded 0 [("a", pIdle)] ("a", tickPlayer 0 pIdle)
    le_rfl hmem
  exact ⟨le_rfl, hmem, h.1, h.2.1, h.2.2.1, h.2.2.2⟩

lemma diag_sq (a : ℝ) : (a * (1 / Real.sqrt 2)) ^ 2 = a ^ 2 * (1 / 2) := by
  rw [mul_pow, invsqrt2_sq]

lemma mag_dir (i : Input) :
    mag (dir i) = if i.left = i.right ∧ i.up = i.down then 0 else 1 := by
  obtain ⟨u, d, l, r⟩ := i
  cases u <;> cases d <;> cases l <;> cases r <;>
    simp only [mag, dir, rawDir] <;>
    norm_num [diag_sq, Real.sqrt_zero, Real.sqrt_one]

/-- C2: the direction vector has magnitude 0 (exactly when each axis's two
keys cancel: none held, or opposing keys held) or 1, and the velocity a tick
sets is `speed × direction` — a function of the current input and speed
only, never of the previous velocity. -/
theorem velocity_is_speed_times_unit_dir (i : Input) (dt : ℝ) (p : Player) :
    (mag (dir i) = 0 ∨ mag (dir i) = 1) ∧
    (mag (dir i) = 0 ↔ (i.left = i.right ∧ i.up = i.down)) ∧
    (tickPlayer dt p).vx = (dir p.input).1 * p.speed ∧
    (tickPlayer dt p).vy = (dir p.input).2 * p.speed := by
  refine ⟨?_, ?_, rfl, rfl⟩
  · rw [mag_dir]
    by_cases h : i.left = i.right ∧ i.up = i.down <;> simp [h]
  · rw [mag_dir]
    by_cases h : i.left = i.right ∧ i.up = i.down <;> simp [h]

/-- C10: an idle in-bounds entity is a fixed point of the tick: with all
four inputs false and position already inside `[20,980] × [20,580]`, a tick
leaves the position unchanged and sets velocity to `(0, 0)`. -/
theorem idle_tick_fixed_point (p : Player) (dt : ℝ)
    (hin : p.input = ⟨false, false, false, false⟩)
    (hx1 : 20 ≤ p.x) (hx2 : p.x ≤ 980) (hy1 : 20 ≤ p.y) (hy2 : p.y ≤ 580)
    (hdt : 0 ≤ dt) :
    (tickPlayer dt p).x = p.x ∧ (tickPlayer dt p).y = p.y ∧
    (tickPlayer dt p).vx = 0 ∧ (tickPlayer dt p).vy = 0 := by
  have hd : dir p.input = (0, 0) := by simp [dir, rawDir, hin]
  refine ⟨?_, ?_, ?_, ?_⟩
  · show max 20 (min 980 (p.x + (dir p.input).1 * p.speed * dt)) = p.x
    rw [hd]
    norm_num
    rw [min_eq_right hx2, max_eq_right hx1]
  · show max 20 (min 580 (p.y + (dir p.input).2 * p.speed * dt)) = p.y
    rw [hd]
    norm_num
    rw [min_eq_right hy2, max_eq_right hy1]
  · show (dir p.input).1 * p.speed = 0
    rw [hd]; norm_num
  · show (dir p.input).2 * p.speed = 0
    rw [hd]; norm_num

/-- Witness for C10 at the concrete idle player and `dt = 1`. -/
theorem idle_tick_fixed_point_witness :
    pIdle.input = ⟨false, false, false, false⟩ ∧
    20 ≤ pIdle.x ∧ pIdle.x ≤ 980 ∧ 20 ≤ pIdle.y ∧ pIdle.y ≤ 580 ∧
    (0:ℝ) ≤ 1 ∧
    (tickPlayer 1 pIdle).x = pIdle.x ∧ (tickPlayer 1 pIdle).y = pIdle.y ∧
    (tickPlayer 1 pIdle).vx = 0 ∧ (tickPlayer 1 pIdle).vy = 0 := by
  have h1 : pIdle.input = ⟨false, false, false, false⟩ := rfl
  have h2 : (20:ℝ) ≤ pIdle.x := by norm_num [pIdle]
  have h3 : pIdle.x ≤ 980 := by norm_num [pIdle]
  have h4 : (20:ℝ) ≤ pIdle.y := by norm_num [pIdle]
  have h5 : pIdle.y ≤ 580 := by norm_num [pIdle]
  have h := idle_tick_fixed_point pIdle 1 h1 h2 h3 h4 h5 (by norm_num)
  exact ⟨h1, h2, h3, h4, h5, by norm_num, h.1, h.2.1, h.2.2.1, h.2.2.2⟩

lemma runTicks_right_aux (dts : List ℝ) : ∀ (p : Player),
    (∀ d ∈ dts, 0 ≤ d) → p.input = ⟨false, false, false, true⟩ →
    p.speed = 180 → 20 ≤ p.x → p.x + 180 * dts.sum ≤ 980 →
    20 ≤ p.y → p.y ≤ 580 →
    (runTicks p dts).x = p.x + 180 * dts.sum ∧ (runTicks p dts).y = p.y := by
  induction dts with
  | nil =>
    intro p _ _ _ _ _ _ _
    simp [runTicks]
  | cons d rest ih =>
    intro p hnn hin hsp hx1 hx2 hy1 hy2
    have hd0 : 0 ≤ d := hnn d (by simp)
    have hrest : ∀ x ∈ rest, 0 ≤ x := fun x hx => hnn x (by simp [hx])
    have hsum0 : 0 ≤ rest.sum := List.sum_nonneg hrest
    have hcons : (d :: rest).sum = d + rest.sum := List.sum_cons
    have hdir : dir p.input = (1, 0) := by
      simp [dir, rawDir, hin]
    have hx' : (tickPlayer d p).x = p.x + 180 * d := by
      show max 20 (min 980 (p.x + (dir p.input).1 * p.speed * d)) = _
      rw [hdir, hsp]
      norm_num
      rw [min_eq_right (by rw [hcons] at hx2; nlinarith),
        max_eq_right (by nlinarith)]
    have hy' : (tickPlayer d p).y = p.y := by
      show max 20 (min 580 (p.y + (dir p.input).2 * p.speed * d)) = _
      rw [hdir]
      norm_num
      rw [min_eq_right hy2, max_eq_right hy1]
    have hrec := ih (tickPlayer d p) hrest
      (by rw [(tickPlayer_preserves d p).1, hin])
      (by rw [(tickPlayer_preserves d p).2.1, hsp])
      (by rw [hx']; nlinarith)
      (by rw [hx']; rw [hcons] at hx2; nlinarith)
      (by rw [hy']; exact hy1)
      (by rw [hy']; exact hy2)
    have hrun : runTicks p (d :: rest) = runTicks (tickPlayer d p) rest := rfl
    rw [hrun, hrec.1, hrec.2, hx', hy', hcons]
    constructor
    · ring
    · rfl

/-- C9: starting at `(500, 300)` with `speed = 180` and only `right` held,
over any tick sequence of non-negative `dt`s summing to exactly 1 second,
the final position is `x = 680` (no clamping triggers) and `y = 300`. -/
theorem hold_right_one_second (dts : List ℝ) (p : Player)
    (hnn : ∀ d ∈ dts, 0 ≤ d) (hsum : dts.sum = 1)
    (hx : p.x = 500) (hy : p.y = 300) (hsp : p.speed = 180)
    (hin : p.input = ⟨false, false, false, true⟩) :
    (runTicks p dts).x = 680 ∧ (runTicks p dts).y = 300 := by
  have h := runTicks_right_aux dts p hnn hin hsp
    (by rw [hx]; norm_num)
    (by rw [hx, hsum]; norm_num)
    (by rw [hy]; norm_num)
    (by rw [hy]; norm_num)
  refine ⟨?_, ?_⟩
  · rw [h.1, hx, hsum]; norm_num
  · rw [h.2, hy]

/-- Witness for C9: one single tick with `dt = 1`. -/
theorem hold_right_one_second_witness :
    (∀ d ∈ [(1:ℝ)], 0 ≤ d) ∧ [(1:ℝ)].sum = 1 ∧
    pRight.x = 500 ∧ pRight.y = 300 ∧ pRight.speed = 180 ∧
    pRight.input = ⟨false, false, false, true⟩ ∧
    (runTicks pRight [1]).x = 680 ∧ (runTicks pRight [1]).y = 300 := by
  have h1 : ∀ d ∈ [(1:ℝ)], 0 ≤ d := by norm_num
  have h2 : [(1:ℝ)].sum = 1 := by simp
  have h := hold_right_one_second [1] pRight h1 h2 rfl rfl rfl rfl
  exact ⟨h1, h2, rfl, rfl, rfl, rfl, h.1, h.2⟩

lemma mem_mapSet_self {α : Type} (k : Id) (v : α) (m : List (Id × α)) :
    (k, v) ∈ mapSet k v m := by
  induction m with
  | nil => simp [mapSet]
  | cons a rest ih =>
    by_cases h : a.1 = k
    · simp [mapSet, h]
    · simp only [mapSet, if_neg h]
      exact List.mem_cons_of_mem _ ih

lemma mem_mapSet_of_ne {α : Type} {k : Id} {v : α} {m : List (Id × α)}
    {e : Id × α} (he : e ∈ m) (hne : e.1 ≠ k) : e ∈ mapSet k v m := by
  induction m with
  | nil => cases he
  | cons a rest ih =>
    simp only [mapSet]
    by_cases ha : a.1 = k
    · rw [if_pos ha]
      rcases List.mem_cons.1 he with rfl | h
      · exact absurd ha hne
      · exact List.mem_cons_of_mem _ h
    · rw [if_neg ha]
      rcases List.mem_cons.1 he with rfl | h
      · exact List.mem_cons_self _ _
      · exact List.mem_cons_of_mem _ (ih h)

lemma broadcast_mem_of (openC : ConnId → Bool) (reg : List (Id × Player))
    (m : Out) (e : Id × Player) (he : e ∈ reg)
    (ho : openC e.2.conn = true) : (e.2.conn, m) ∈ broadcast openC reg m :=
  List.mem_map.2 ⟨e, List.mem_filter.2 ⟨he, ho⟩, rfl⟩

lemma broadcast_cons (openC : ConnId → Bool) (e : Id × Player)
    (rest : List (Id × Player)) (m : Out) :
    broadcast openC (e :: rest) m =
      if openC e.2.conn then (e.2.conn, m) :: broadcast openC rest m
      else broadcast openC rest m := by
  by_cases h : openC e.2.conn <;> simp [broadcast, List.filter_cons, h]

/-- C3: the one-time welcome message does not carry the id under which the
entity was inserted.  On a concrete connection, the welcome carries the
shadow id `"shC3"` (the `Math.random` id of line 56) while the Entity was
inserted, announced in `player_join` and listed in periodic snapshots under
`"regC3"` (the `crypto` id of line 36). -/
theorem welcome_id_mismatch :
    (onConnection openAll ⟨[], []⟩ 7 fC3).2.head? =
      some (7, Out.welcome "shC3" "1.2.3.4") ∧
    (onConnection openAll ⟨[], []⟩ 7 fC3).1.reg =
      [("regC3", createPlayer 7 fC3)] ∧
    (7, Out.playerJoin "regC3" 400 200 "#333333") ∈
      (onConnection openAll ⟨[], []⟩ 7 fC3).2 ∧
    periodicSnapshot 5 (onConnection openAll ⟨[], []⟩ 7 fC3).1.reg =
      Out.snapshot (some 5)
        [⟨"regC3", jsRound 400, jsRound 200, jsRound 0, jsRound 0,
          "#333333", none⟩] ∧
    "shC3" ≠ "regC3" := by
  refine ⟨rfl, rfl, ?_, rfl, by decide⟩
  have h : (onConnection openAll ⟨[], []⟩ 7 fC3).2 =
      [(7, Out.welcome "shC3" "1.2.3.4"),
       (7, joinSnapshot (mapSet "shC3" ⟨100, 100, 0, 0, "#444444", "1.2.3.4"⟩
         [])),
       (7, Out.playerJoin "regC3" 400 200 "#333333")] := rfl
  rw [h]
  simp

/-- C4: the periodic snapshot matches the claimed shape — one entry per
registry entity with exactly `{id, x, y, vx, vy, color}`, coordinates
rounded to integers, a `ts` field, and the identical payload fanned out to
each open connection — but the join-time snapshot broadcast by the
connection handler does not: at a concrete join it has no `ts`
(`ts = none`), its sole entry carries an extra `ip` field and the shadow id
`"sh4"`, and the live entity `"reg4"` appears in no entry. -/
theorem snapshot_message_shape (s : ServerState) (ts : ℝ)
    (openC : ConnId → Bool) :
    periodicSnapshot ts s.reg = Out.snapshot (some ts) (s.reg.map fun e =>
      ⟨e.2.id, jsRound e.2.x, jsRound e.2.y, jsRound e.2.vx, jsRound e.2.vy,
        e.2.color, none⟩) ∧
    (∀ x : ℝ, ∃ n : ℤ, jsRound x = (n : ℝ)) ∧
    onBroadcastTick openC s ts = (s.reg.filter fun e => openC e.2.conn).map
      (fun e => (e.2.conn, periodicSnapshot ts s.reg)) ∧
    (0, joinSnapshot (mapSet "sh4" ⟨100, 100, 0, 0, "#666666", "8.8.8.8"⟩ []))
      ∈ (onConnection openAll ⟨[], []⟩ 0 fC4).2 ∧
    joinSnapshot (mapSet "sh4" ⟨100, 100, 0, 0, "#666666", "8.8.8.8"⟩ []) =
      Out.snapshot none [⟨"sh4", 100, 100, 0, 0, "#666666", some "8.8.8.8"⟩] ∧
    (onConnection openAll ⟨[], []⟩ 0 fC4).1.reg =
      [("reg4", createPlayer 0 fC4)] := by
  refine ⟨rfl, fun x => ⟨⌊x + 1 / 2⌋, rfl⟩, rfl, ?_, rfl, rfl⟩
  have h : (onConnection openAll ⟨[], []⟩ 0 fC4).2 =
      [(0, Out.welcome "sh4" "8.8.8.8"),
       (0, joinSnapshot (mapSet "sh4" ⟨100, 100, 0, 0, "#666666", "8.8.8.8"⟩
         [])),
       (0, Out.playerJoin "reg4" 305 300 "#555555")] := rfl
  rw [h]
  simp

/-- C5 counterexample: the `player_join` announcing a new entity *is*
delivered to the newly joined connection itself, because `broadcast`
iterates the whole registry, which already contains the new player
(line 53 runs before line 87). -/
theorem player_join_sent_to_self :
    (0, Out.playerJoin "reg5" 500 300 "#111111") ∈
      (onConnection openAll ⟨[], []⟩ 0 fC5).2 := by
  have h : (onConnection openAll ⟨[], []⟩ 0 fC5).2 =
      [(0, Out.welcome "sh5" "9.9.9.9"),
       (0, joinSnapshot (mapSet "sh5" ⟨100, 100, 0, 0, "#222222", "9.9.9.9"⟩
         [])),
       (0, Out.playerJoin "reg5" 500 300 "#111111")] := rfl
  rw [h]
  simp

/-- C5 amended: `player_join` is delivered to every registry entry whose
socket is open — the pre-existing connections *and* the newly joined
connection itself. -/
theorem player_join_recipients (openC : ConnId → Bool) (s : ServerState)
    (c : ConnId) (f : ConnFresh) (hopen : openC c = true)
    (hfresh : ∀ e ∈ s.reg, e.1 ≠ f.regId) :
    (c, Out.playerJoin f.regId f.spawnX f.spawnY f.color1) ∈
      (onConnection openC s c f).2 ∧
    ∀ e ∈ s.reg, openC e.2.conn = true →
      (e.2.conn, Out.playerJoin f.regId f.spawnX f.spawnY f.color1) ∈
        (onConnection openC s c f).2 := by
  constructor
  · refine List.mem_cons_of_mem _ (List.mem_append_right _ ?_)
    exact broadcast_mem_of openC _ _ (f.regId, createPlayer c f)
      (mem_mapSet_self _ _ _) hopen
  · intro e he ho
    refine List.mem_cons_of_mem _ (List.mem_append_right _ ?_)
    exact broadcast_mem_of openC _ _ e
      (mem_mapSet_of_ne he (hfresh e he)) ho

/-- Witness for the amended C5: a join on connection 9 with one
pre-existing player on connection 5; both receive the `player_join`. -/
theorem player_join_recipients_witness :
    openAll 9 = true ∧
    (∀ e ∈ [("old", pOld)], e.1 ≠ fC5.regId) ∧
    (9, Out.playerJoin fC5.regId fC5.spawnX fC5.spawnY fC5.color1) ∈
      (onConnection openAll ⟨[("old", pOld)], []⟩ 9 fC5).2 ∧
    (5, Out.playerJoin fC5.regId fC5.spawnX fC5.spawnY fC5.color1) ∈
      (onConnection openAll ⟨[("old", pOld)], []⟩ 9 fC5).2 := by
  have hfresh : ∀ e ∈ [("old", pOld)], e.1 ≠ fC5.regId := by
    intro e he
    rcases List.mem_singleton.1 he with rfl
    decide
  have h := player_join_recipients openAll ⟨[("old", pOld)], []⟩ 9 fC5 rfl
    hfresh
  have h5 := h.2 ("old", pOld) (List.mem_singleton.2 rfl) rfl
  exact ⟨rfl, hfresh, h.1, h5⟩

/-- C6 counterexample: an `input` message with no `input` object does not
coerce the stored input to all-false — reading `msg.input.up` throws a
`TypeError` (caught upstream), and the previously stored input survives. -/
theorem absent_input_object_not_coerced :
    (handleMessage 0 pAllTrue (.input none)).1.input =
      ⟨true, true, true, true⟩ ∧
    (handleMessage 0 pAllTrue (.input none)).1.input ≠
      ⟨false, false, false, false⟩ ∧
    (handleMessage 0 pAllTrue (.input none)).2.1 = true := by
  exact ⟨rfl, by decide, rfl⟩

/-- C6 amended: an `input` message carrying an `input` object overwrites
the stored input entirely, each missing field coercing to `false`; but when
the whole `input` object is absent the handler throws after updating
`lastSeen`, the try/catch logs and drops the message, and the stored input
is left unchanged. -/
theorem input_overwrite (now : ℝ) (p : Player) (inp : InputMsg) :
    handleMessage now p (.input (some inp)) =
      ({ p with lastSeen := now,
                input := ⟨inp.up.getD false, inp.down.getD false,
                          inp.left.getD false, inp.right.getD false⟩ },
        false, []) ∧
    handleMessage now p (.input none) =
      ({ p with lastSeen := now }, true, []) ∧
    onMessage now p (some (.input none)) =
      ({ p with lastSeen := now }, [], true) := by
  exact ⟨rfl, rfl, rfl⟩

/-- C7: after A disconnects the canonical registry entry is gone, deleting
the already-absent id again is a no-op, `remove` with A's id goes exactly
once to each remaining connection, and the periodic snapshot no longer
lists A — but the shadow record written at A's join is never deleted, so
the join-time snapshot broadcast at B's later join still carries an entry
with the id A was welcomed under (`"shA"`) and A's ip. -/
theorem remove_and_ghost_snapshot :
    closeA.1.reg = [] ∧
    mapDelete "regA" closeA.1.reg = closeA.1.reg ∧
    closeA2.1.reg = [("regB", createPlayer 1 fB)] ∧
    closeA2.2 = [(1, Out.remove "regA")] ∧
    (0, Out.welcome "shA" "1.1.1.1") ∈ joinA.2 ∧
    (∀ ts : ℝ, periodicSnapshot ts closeA.1.reg =
      Out.snapshot (some ts) []) ∧
    (1, Out.snapshot none
      [⟨"shA", 100, 100, 0, 0, "#aa0001", some "1.1.1.1"⟩,
       ⟨"shB", 100, 100, 0, 0, "#bb0001", some "2.2.2.2"⟩]) ∈ joinB.2 := by
  refine ⟨rfl, rfl, rfl, rfl, ?_, fun ts => rfl, ?_⟩
  · have h : joinA.2 =
        [(0, Out.welcome "shA" "1.1.1.1"),
         (0, joinSnapshot (mapSet "shA" ⟨100, 100, 0, 0, "#aa0001",
           "1.1.1.1"⟩ [])),
         (0, Out.playerJoin "regA" 400 200 "#aa0000")] := rfl
    rw [h]
    simp
  · have h : joinB.2 =
        [(1, Out.welcome "shB" "2.2.2.2"),
         (1, Out.snapshot none
           [⟨"shA", 100, 100, 0, 0, "#aa0001", some "1.1.1.1"⟩,
            ⟨"shB", 100, 100, 0, 0, "#bb0001", some "2.2.2.2"⟩]),
         (1, Out.playerJoin "regB" 450 250 "#bb0000")] := rfl
    rw [h]
    simp

/-- C8: failure isolation.  An unparseable message is dropped with a local
warning, the player record and connection untouched; a thrown error inside
`handleMessage` is likewise caught; a connection whose socket is not open
receives nothing from a broadcast; and what a connection receives depends
only on its own socket's state, not on any other connection's. -/
theorem failure_isolation (now : ℝ) (p : Player)
    (openC openD : ConnId → Bool) (reg : List (Id × Player)) (m : Out)
    (c : ConnId) :
    onMessage now p none = (p, [], true) ∧
    onMessage now p (some (.input none)) =
      ({ p with lastSeen := now }, [], true) ∧
    (openC c = false → ∀ out : Out, (c, out) ∉ broadcast openC reg m) ∧
    (openC c = openD c →
      (broadcast openC reg m).filter (fun e => e.1 = c) =
        (broadcast openD reg m).filter (fun e => e.1 = c)) := by
  refine ⟨rfl, rfl, ?_, ?_⟩
  · intro hclosed out hmem
    rcases List.mem_map.1 hmem with ⟨e, hef, heq⟩
    have ho : openC e.2.conn = true := (List.mem_filter.1 hef).2
    have hc : e.2.conn = c := congrArg Prod.fst heq
    rw [hc] at ho
    rw [hclosed] at ho
    cases ho
  · intro hagree
    induction reg with
    | nil => rfl
    | cons e rest ih =>
      rw [broadcast_cons, broadcast_cons]
      by_cases hc : e.2.conn = c
      · rw [hc, hagree]
        cases hod : openD c
        · simpa [hod] using ih
        · simpa [hod] using ih
      · cases hoc : openC e.2.conn <;> cases hod : openD e.2.conn <;>
          simpa [hoc, hod, List.filter_cons, hc] using ih

/-- Witness for C8: connection 0 is closed under `openOnlyOne`, so it gets
nothing from a broadcast to a one-player registry, and its deliveries agree
with those under a fully closed socket table. -/
theorem failure_isolation_witness :
    onMessage 3 pIdle none = (pIdle, [], true) ∧
    openOnlyOne 0 = false ∧
    ((0, Out.remove "a") ∉
      broadcast openOnlyOne [("a", pIdle)] (Out.remove "a")) ∧
    openOnlyOne 0 = (fun _ => false) 0 ∧
    (broadcast openOnlyOne [("a", pIdle)] (Out.remove "a")).filter
        (fun e => e.1 = 0) =
      (broadcast (fun _ => false) [("a", pIdle)] (Out.remove "a")).filter
        (fun e => e.1 = 0) := by
  have h := failure_isolation 3 pIdle openOnlyOne (fun _ => false)
    [("a", pIdle)] (Out.remove "a") 0
  exact ⟨h.1, rfl, h.2.2.1 rfl _, rfl, h.2.2.2 rfl⟩

end WsGame
